import Mathlib

/-!
Verification of the StarbaseDB query-execution pipeline against its source
(src/src/handler.ts, which contains the `StarbaseDB` handler class followed by
the operation module with `executeQuery`, `executeTransaction`,
`executeExternalQuery`, `transformRawResults`, `beforeQuery`, `afterQuery`).

The embedding models JavaScript dynamic values with an explicit `JSValue`
type: JS objects are insertion-ordered association lists with unique keys
(maintained by `setField`, mirroring `obj[k] = v` assignment and the
`{...acc, [k]: v}` spread-and-add used by the source), `typeof` and
`Array.isArray` follow JS semantics (in particular `typeof null` is
"object"), and out-of-range array indexing yields `undefined`.

Components of the repository that the snapshot does not include under src/
(the cache module, the allowlist module, the RLS module, the LiteREST class
and the CORS module) are modelled from the specification; each such
definition carries a doc comment starting with `Modelled from the spec:`.
All other definitions are translated from the source.
-/

/-! ## JavaScript value model -/

/-- A JavaScript runtime value, as used by the dynamically typed source.
Objects are insertion-ordered association lists with unique keys. -/
inductive JSValue where
  | undefined
  | null
  | bool (b : Bool)
  | num (n : Int)
  | str (s : String)
  | arr (elems : List JSValue)
  | obj (fields : List (String × JSValue))

mutual

/-- Structural equality test on JS values (JS deep equality of JSON-like data;
used only to compare cache keys, mirroring a deterministic fingerprint of
`(sql, params)`). -/
def JSValue.beq : JSValue → JSValue → Bool
  | .undefined, .undefined => true
  | .null, .null => true
  | .bool a, .bool b => a = b
  | .num a, .num b => a = b
  | .str a, .str b => a = b
  | .arr xs, .arr ys => JSValue.beqList xs ys
  | .obj xs, .obj ys => JSValue.beqFields xs ys
  | _, _ => false

def JSValue.beqList : List JSValue → List JSValue → Bool
  | [], [] => true
  | x :: xs, y :: ys => JSValue.beq x y && JSValue.beqList xs ys
  | _, _ => false

def JSValue.beqFields : List (String × JSValue) → List (String × JSValue) → Bool
  | [], [] => true
  | (k, v) :: xs, (k2, v2) :: ys => k = k2 && JSValue.beq v v2 && JSValue.beqFields xs ys
  | _, _ => false

end

/-- The JS `typeof` operator restricted to the values of our model.
Note `typeof null` is "object", as in JavaScript. -/
def JSValue.typeofJS : JSValue → String
  | .undefined => "undefined"
  | .null => "object"
  | .bool _ => "boolean"
  | .num _ => "number"
  | .str _ => "string"
  | .arr _ => "object"
  | .obj _ => "object"

/-- `Array.isArray`. -/
def JSValue.isArrayJS : JSValue → Bool
  | .arr _ => true
  | _ => false

/-- JS truthiness: `undefined`, `null`, `false`, `0` and the empty string are
falsy; every other value (including every object and array) is truthy. -/
def JSValue.truthy : JSValue → Bool
  | .undefined => false
  | .null => false
  | .bool b => b
  | .num n => !(n = 0)
  | .str s => !(s = "")
  | .arr _ => true
  | .obj _ => true

/-- Property read `v[k]`: looks a key up in an object; any other value has no
such property, which in the source's uses reads as `undefined`. -/
def JSValue.getField : JSValue → String → JSValue
  | .obj fields, k => ((fields.find? (fun p => p.1 = k)).map Prod.snd).getD .undefined
  | _, _ => .undefined

/-- Assignment `obj[k] = v` on an insertion-ordered association list: an
existing key keeps its position and gets the new value; a new key is appended.
This is also the meaning of the `{...acc, [k]: v}` spread used by the source. -/
def setField : List (String × JSValue) → String → JSValue → List (String × JSValue)
  | [], k, v => [(k, v)]
  | (k2, v2) :: rest, k, v =>
    if k2 = k then (k, v) :: rest else (k2, v2) :: setField rest k v

/-- `Object.keys` of an insertion-ordered association-list object. -/
def keysOf (fields : List (String × JSValue)) : List String :=
  fields.map Prod.fst

/-- Property read on an association-list object, `undefined` when absent. -/
def lookupField (fields : List (String × JSValue)) (k : String) : JSValue :=
  ((fields.find? (fun p => p.1 = k)).map Prod.snd).getD .undefined

/-! ## Character-list string helpers

The source manipulates strings with `trim`, `includes`, `replace(/\?/g, ...)`
and `replaceAll("\n", " ")`; these are modelled on the character list of the
string so that every operation is structurally recursive and computable. -/

/-- Whether the pattern occurs at the start of the list (`String.startsWith`
on character lists). -/
def startsWithCL : List Char → List Char → Bool
  | [], _ => true
  | _ :: _, [] => false
  | p :: ps, c :: cs => p = c && startsWithCL ps cs

/-- Whether the pattern occurs anywhere in the list (JS `String.includes`). -/
def containsSub (pat s : List Char) : Bool :=
  match s with
  | [] => startsWithCL pat []
  | _ :: cs => startsWithCL pat s || containsSub pat cs

/-- JS `s.trim()`: strip leading and trailing whitespace. -/
def jsTrim (s : List Char) : List Char :=
  ((s.dropWhile Char.isWhitespace).reverse.dropWhile Char.isWhitespace).reverse

/-- The JS test `!s.trim()`: the trimmed string is empty, i.e. every character
of `s` is whitespace. -/
def trimIsEmpty (s : String) : Bool :=
  jsTrim s.data = []

/-- `sql.replaceAll("\n", " ")`: collapse newlines to spaces (source line
sending the hosted-proxy request body). -/
def collapseNewlines (s : List Char) : List Char :=
  s.map (fun c => if c = '\n' then ' ' else c)

/-- `sql.replace(/\?/g, () => ":param" + paramIndex++)`: each `?`, in source
order, is replaced by `:paramN` where `N` is the running zero-based counter. -/
def rewriteQs : List Char → Nat → List Char
  | [], _ => []
  | c :: cs, n =>
    if c = '?' then (":param" ++ toString n).data ++ rewriteQs cs (n + 1)
    else c :: rewriteQs cs n

/-! ## Injectivity of the decimal rendering of `Nat`

The source builds the named-parameter keys with the template `param${index}`;
the index is rendered in decimal by `toString`/`Nat.repr`. Distinct indices
render to distinct keys, which is what makes the converted parameter object
collision-free. -/

/-- Decimal digit characters of `n`, most significant first. -/
def decDigits (n : Nat) : List Char :=
  if _h : n < 10 then [Nat.digitChar n]
  else decDigits (n / 10) ++ [Nat.digitChar (n % 10)]
  decreasing_by exact Nat.div_lt_self (by omega) (by omega)

lemma toDigitsCore_eq_decDigits :
    ∀ (fuel n : Nat) (ds : List Char), n < fuel →
      Nat.toDigitsCore 10 fuel n ds = decDigits n ++ ds := by
  intro fuel
  induction fuel with
  | zero => omega
  | succ f ih =>
    intro n ds h
    rw [Nat.toDigitsCore]
    by_cases h10 : n / 10 = 0
    · have hn : n < 10 := by omega
      simp only [h10, if_pos]
      rw [decDigits, dif_pos hn, Nat.mod_eq_of_lt hn]
      rfl
    · have hn : ¬ n < 10 := by
        intro hlt
        exact h10 (Nat.div_eq_of_lt hlt)
      simp only [h10, if_neg, if_false]
      rw [ih (n / 10) _ (by
        have h1 : n / 10 < n := Nat.div_lt_self (by omega) (by omega)
        omega)]
      conv_rhs => rw [decDigits]
      rw [dif_neg hn]
      simp [List.append_assoc]

lemma toDigits_eq_decDigits (n : Nat) : Nat.toDigits 10 n = decDigits n := by
  rw [Nat.toDigits, toDigitsCore_eq_decDigits (n + 1) n [] (Nat.lt_succ_self n)]
  simp

/-- Numeric value of a decimal digit character. -/
def charDigitVal (c : Char) : Nat :=
  if c = '0' then 0 else if c = '1' then 1 else if c = '2' then 2
  else if c = '3' then 3 else if c = '4' then 4 else if c = '5' then 5
  else if c = '6' then 6 else if c = '7' then 7 else if c = '8' then 8
  else if c = '9' then 9 else 10

lemma charDigitVal_digitChar (d : Nat) (h : d < 10) :
    charDigitVal (Nat.digitChar d) = d := by
  interval_cases d <;> rfl

/-- Parse a decimal digit string, most significant first. -/
def parseDigits (l : List Char) : Nat :=
  l.foldl (fun acc c => acc * 10 + charDigitVal c) 0

lemma parseDigits_append_singleton (l : List Char) (c : Char) :
    parseDigits (l ++ [c]) = parseDigits l * 10 + charDigitVal c := by
  simp [parseDigits, List.foldl_append]

lemma parseDigits_decDigits (n : Nat) : parseDigits (decDigits n) = n := by
  induction n using Nat.strong_induction_on with
  | _ n ih =>
    by_cases h : n < 10
    · rw [decDigits, dif_pos h]
      simp [parseDigits, charDigitVal_digitChar n h]
    · rw [decDigits, dif_neg h]
      rw [parseDigits_append_singleton]
      rw [ih (n / 10) (Nat.div_lt_self (by omega) (by omega))]
      rw [charDigitVal_digitChar (n % 10) (Nat.mod_lt n (by omega))]
      omega

lemma natRepr_injective {a b : Nat} (h : Nat.repr a = Nat.repr b) : a = b := by
  have hd : Nat.toDigits 10 a = Nat.toDigits 10 b := by
    have := congrArg String.data h
    simpa [Nat.repr, List.asString] using this
  have hdec : decDigits a = decDigits b := by
    rwa [toDigits_eq_decDigits, toDigits_eq_decDigits] at hd
  have hp := congrArg parseDigits hdec
  rwa [parseDigits_decDigits, parseDigits_decDigits] at hp

lemma natToString_injective {a b : Nat} (h : toString a = toString b) : a = b :=
  natRepr_injective h

/-! ## Data model (declarations of src/types.ts as used by the source) -/

/-- `DataSource.source`: `'internal' | 'external'`. -/
inductive SourceKind where
  | internal
  | external
  deriving DecidableEq

/-- External connection descriptor: carries `dialect`, `provider` and the
connection credentials (the credentials are never read by the code under
verification and are elided). -/
structure ExternalConn where
  dialect : Option String
  provider : Option String
  deriving DecidableEq

/-- `DataSource`: the target of execution.  The internal RPC itself is part of
the pipeline environment (`Env.rpcExec`). -/
structure DataSource where
  source : SourceKind
  external : Option ExternalConn
  deriving DecidableEq

/-- `StarbaseDBConfiguration.features`.  The TS field names `export` and
`import` are Lean keywords and are rendered `exportFlag` / `importFlag`. -/
structure StarbaseFeatures where
  allowlist : Option Bool
  rls : Option Bool
  rest : Option Bool
  websocket : Option Bool
  exportFlag : Option Bool
  importFlag : Option Bool
  deriving DecidableEq

/-- `StarbaseDBConfiguration`. -/
structure StarbaseDBConfiguration where
  outerbaseApiKey : Option String
  role : String
  features : Option StarbaseFeatures
  deriving DecidableEq

/-- The call-site expression `config?.features?.allowlist ?? false` used by
`executeQuery`. -/
def allowlistEnabled : Option StarbaseDBConfiguration → Bool
  | none => false
  | some c =>
    match c.features with
    | none => false
    | some f => f.allowlist.getD false

/-- The call-site expression `config?.features?.rls ?? false` used by
`executeQuery`. -/
def rlsEnabled : Option StarbaseDBConfiguration → Bool
  | none => false
  | some c =>
    match c.features with
    | none => false
    | some f => f.rls.getD false

/-- `StarbaseDB.getFeature(key)`: `this.config.features?.[key] ?? !!defaultValue`
with the default value `true` (every call site uses the default). -/
def getFeature (cfg : StarbaseDBConfiguration) (key : StarbaseFeatures → Option Bool) : Bool :=
  (cfg.features.bind key).getD true

/-- The JS object view of an external connection descriptor (the fields the
code under verification reads; an object is always truthy). -/
def ExternalConn.toJS (e : ExternalConn) : JSValue :=
  .obj [("dialect", (e.dialect.map .str).getD .undefined),
        ("provider", (e.provider.map .str).getD .undefined)]

/-- The JS object view of a `DataSource` (an absent `external` property reads
as `undefined`). -/
def DataSource.toJS (ds : DataSource) : JSValue :=
  .obj [("source", .str (match ds.source with
          | .internal => "internal"
          | .external => "external")),
        ("external", (ds.external.map ExternalConn.toJS).getD .undefined)]

/-- The JS object view of a configuration (the only property the external
execution path reads is `outerbaseApiKey`). -/
def StarbaseDBConfiguration.toJS (c : StarbaseDBConfiguration) : JSValue :=
  .obj [("outerbaseApiKey", (c.outerbaseApiKey.map .str).getD .undefined),
        ("role", .str c.role)]

/-! ## Result shape transformer (`transformRawResults`) -/

/-- `meta` of the engine-native tabular shape. -/
structure RawMeta where
  rows_read : Nat
  rows_written : Nat
  deriving DecidableEq

/-- The engine-native tabular result: `{ columns, rows, meta }`. -/
structure RawResult where
  columns : List String
  rows : List (List JSValue)
  meta : RawMeta

/-- One step of `transformRawResults(_, "from")`: the inner
`result.columns.reduce((obj, column, index) => { obj[column] = row[index]; return obj }, {})`.
Indexing past the end of `row` reads as `undefined`. -/
def buildRow (columns : List String) (row : List JSValue) : List (String × JSValue) :=
  (columns.enum).foldl (fun obj p => setField obj p.2 (row.getD p.1 .undefined)) []

/-- `transformRawResults(result, "from")`: convert the `raw` output to the
traditional object rows (the function returns `result.rows` after mapping). -/
def transformFromRaw (r : RawResult) : List (List (String × JSValue)) :=
  r.rows.map (buildRow r.columns)

/-- `transformRawResults(result, "to")`: convert traditional object rows to the
`raw` output format.  `columns` is `Object.keys(result[0] || {})`; each row is
the projection of the row mapping in that column order; `meta` is
`{ rows_read: rows.length, rows_written: 0 }`. -/
def transformToRaw (rows : List (List (String × JSValue))) : RawResult :=
  let columns := keysOf (rows.headD [])
  let projected := rows.map (fun row => columns.map (fun c => lookupField row c))
  ⟨columns, projected, ⟨projected.length, 0⟩⟩

/-! ## External execution (`executeExternalQuery`) -/

/-- The outward action `executeExternalQuery` performs: throw the fixed
"External connection not found." error, forward to the SDK driver path
(`executeSDKQuery`), or issue the authenticated hosted-proxy HTTP request
whose body is `{ query, params }`. -/
inductive ExternalAction where
  | throwNotFound
  | sdkQuery (sql : String) (params : JSValue)
  | hostedFetch (query : String) (params : JSValue)

/-- `params.reduce((acc, value, index) => ({ ...acc, [`param${index}`]: value }), {})`:
convert an array of positional parameters to the named-parameter object. -/
def paramsToNamed (vs : List JSValue) : List (String × JSValue) :=
  (vs.enum).foldl (fun acc p => setField acc ("param" ++ toString p.1) p.2) []

/-- `executeExternalQuery(sql, params, dataSource, config)`.  The function has
exactly four parameters; `dataSource` and `config` are handled as dynamic
values because the in-repository call site mis-passes them (see
`dispatchExec`).  Mirrors the source order: the `!dataSource.external` guard,
then the `!config?.outerbaseApiKey` branch to the SDK path, then the
array-parameter conversion and `?`-placeholder rewrite, then the fetch whose
body carries `sql.replaceAll("\n", " ")` and the converted params. -/
def executeExternalQuery (sql : String) (params dataSource config : JSValue) :
    ExternalAction :=
  if !(dataSource.getField "external").truthy then
    .throwNotFound
  else if !(config.getField "outerbaseApiKey").truthy then
    .sdkQuery sql params
  else
    match params with
    | .arr vs =>
      .hostedFetch ((collapseNewlines (rewriteQs sql.data 0)).asString)
        (.obj (paramsToNamed vs))
    | _ => .hostedFetch ((collapseNewlines sql.data).asString) params

/-! ## The query pipeline (`executeQuery` / `executeTransaction`) -/

/-- Observable side effects of one pass through the pipeline. -/
inductive Effect where
  | allowlistCheck (sql : String)
  | cacheLookup (sql : String) (params : JSValue)
  | cacheStore (sql : String) (params : JSValue)
  | backendExec (sql : String) (params : JSValue)
  | externalAct (act : ExternalAction)

/-- Mutable state threaded through a request: the cache's backing store and
the trace of performed effects. -/
structure QState where
  cache : List ((String × JSValue) × JSValue)
  trace : List Effect

/-- The statements the backend actually executed, in order. -/
def QState.backendLog (st : QState) : List (String × JSValue) :=
  st.trace.filterMap (fun e =>
    match e with
    | .backendExec s p => some (s, p)
    | _ => none)

/-- The pipeline's external collaborators: the internal engine RPC, the two
external execution paths' results, the allowlist judgment and the RLS rewrite
(the latter two parameterize the spec-modelled security modules). -/
structure Env where
  rpcExec : String → JSValue → Bool → Except String JSValue
  sdkResult : String → JSValue → Except String JSValue
  hostedResult : String → JSValue → Except String JSValue
  allowed : String → Bool
  rlsRewrite : String → String

/-- Modelled from the spec: `isQueryAllowed` (src/allowlist.ts is not part of
the snapshot).  Spec §4.2: a no-op when the toggle is off; when on, "decides
whether the statement touches only permitted tables/operations" and "signals
failure (statement rejected)" otherwise.  The judgment is the environment's
`allowed` predicate; rejection carries a fixed message. -/
def isQueryAllowed (env : Env) (sql : String) (enabled : Bool) : Except String Unit :=
  if enabled && !(env.allowed sql) then .error "Query not allowed" else .ok ()

/-- Modelled from the spec: `applyRLS` (src/rls.ts is not part of the
snapshot).  Spec §4.2: a no-op when the toggle is off; when on, "produces a
possibly-modified SQL string" injecting row-visibility predicates.  The
rewrite itself is the environment's `rlsRewrite`. -/
def applyRLS (env : Env) (sql : String) (enabled : Bool) : String :=
  if enabled then env.rlsRewrite sql else sql

/-- Modelled from the spec: the lookup half of the cache manager
(src/cache.ts is not part of the snapshot).  Spec §4.3:
`lookup(sql, params) -> ObjectResult | absent`, keyed by a deterministic
fingerprint of `(sql, params)`.  TTL-based expiry is elided: no claim under
verification depends on timing. -/
def cacheLookup (cache : List ((String × JSValue) × JSValue)) (sql : String)
    (params : JSValue) : Option JSValue :=
  (cache.find? (fun e => e.1.1 = sql && JSValue.beq e.1.2 params)).map Prod.snd

/-- Modelled from the spec: the store half of the cache manager.  Spec §4.3:
`store(sql, params, result, ttl)` creates or refreshes the entry for the key;
the newest entry is the one a later lookup finds. -/
def cacheStoreEntry (cache : List ((String × JSValue) × JSValue)) (sql : String)
    (params : JSValue) (result : JSValue) : List ((String × JSValue) × JSValue) :=
  ((sql, params), result) :: cache

/-- `beforeQuery` from the source: the pre-query hook returns `sql` and
`params` unchanged. -/
def beforeQuery (sql : String) (params : JSValue) : String × JSValue :=
  (sql, params)

/-- Read a JS value back as the engine-native tabular shape (the raw-mode
engine response is contractually of this shape, spec §3; unreadable parts
default to empty). -/
def rawOfJS (v : JSValue) : RawResult :=
  ⟨(match v.getField "columns" with
    | .arr es => es.map (fun e => match e with | .str s => s | _ => "")
    | _ => []),
   (match v.getField "rows" with
    | .arr es => es.map (fun e => match e with | .arr r => r | _ => [])
    | _ => []),
   ⟨0, 0⟩⟩

/-- The JS value of an engine-native tabular result. -/
def RawResult.toJS (r : RawResult) : JSValue :=
  .obj [("columns", .arr (r.columns.map .str)),
        ("rows", .arr (r.rows.map (fun row => .arr row))),
        ("meta", .obj [("rows_read", .num r.meta.rows_read),
                       ("rows_written", .num r.meta.rows_written)])]

/-- `afterQuery` from the source: in raw mode the result goes through
`transformRawResults(_, "from")`, the (no-op) post-query hook, and
`transformRawResults(_, "to")`; otherwise it is returned unchanged. -/
def afterQuery (result : JSValue) (isRaw : Bool) : JSValue :=
  if isRaw then (transformToRaw (transformFromRaw (rawOfJS result))).toJS
  else result

/-- The backend dispatch inside `executeQuery`.  For an internal source, the
engine RPC runs with the post-security SQL/params.  For an external source the
source code reads
`executeExternalQuery(updatedSQL, updatedParams, isRaw, dataSource, config)`:
five arguments to a four-parameter function, so (JS call semantics) `isRaw`
binds to the `dataSource` parameter, `dataSource` binds to the `config`
parameter, and `config` is dropped. -/
def dispatchExec (env : Env) (updatedSQL : String) (updatedParams : JSValue)
    (isRaw : Bool) (ds : DataSource) (st : QState) : QState × Except String JSValue :=
  match ds.source with
  | .internal =>
    ({ st with trace := st.trace ++ [.backendExec updatedSQL updatedParams] },
     env.rpcExec updatedSQL updatedParams isRaw)
  | .external =>
    let act := executeExternalQuery updatedSQL updatedParams (JSValue.bool isRaw) ds.toJS
    let st2 := { st with trace := st.trace ++ [.externalAct act] }
    match act with
    | .throwNotFound => (st2, .error "External connection not found.")
    | .sdkQuery s p => (st2, env.sdkResult s p)
    | .hostedFetch q p => (st2, env.hostedResult q p)

/-- `executeQuery(sql, params, isRaw, dataSource?, config?)` from the source.
An absent data source short-circuits to `[]`.  Then: allowlist check, RLS
rewrite (reassigning `sql`), the identity `beforeQuery` hook, a cache lookup
gated only on `!isRaw`, dispatch, a cache write gated only on `!isRaw` keyed
by the (RLS-rewritten) `sql`, and the `afterQuery` shape transform.  Every
thrown error is rethrown as `new Error(error.message)`, preserving the
message. -/
def executeQuery (env : Env) (sql : String) (params : JSValue) (isRaw : Bool)
    (dataSource : Option DataSource) (config : Option StarbaseDBConfiguration)
    (st : QState) : QState × Except String JSValue :=
  match dataSource with
  | none => (st, .ok (.arr []))
  | some ds =>
    let st1 : QState := { st with trace := st.trace ++ [.allowlistCheck sql] }
    match isQueryAllowed env sql (allowlistEnabled config) with
    | .error e => (st1, .error e)
    | .ok _ =>
      let sql1 := applyRLS env sql (rlsEnabled config)
      let up := beforeQuery sql1 params
      if isRaw then
        match dispatchExec env up.1 up.2 isRaw ds st1 with
        | (st2, .error e) => (st2, .error e)
        | (st2, .ok response) => (st2, .ok (afterQuery response isRaw))
      else
        let st2 : QState := { st1 with trace := st1.trace ++ [.cacheLookup up.1 up.2] }
        match cacheLookup st1.cache up.1 up.2 with
        | some cached => (st2, .ok cached)
        | none =>
          match dispatchExec env up.1 up.2 isRaw ds st2 with
          | (st3, .error e) => (st3, .error e)
          | (st3, .ok response) =>
            let st4 : QState :=
              { st3 with
                cache := cacheStoreEntry st3.cache sql1 up.2 response,
                trace := st3.trace ++ [.cacheStore sql1 up.2] }
            (st4, .ok (afterQuery response isRaw))

/-- The sequential loop of `executeTransaction`: each element is one full
`executeQuery` pass; the first failure propagates and stops the loop. -/
def runQueries (env : Env) (queries : List (String × JSValue)) (isRaw : Bool)
    (ds : DataSource) (config : Option StarbaseDBConfiguration) (st : QState) :
    QState × Except String (List JSValue) :=
  match queries with
  | [] => (st, .ok [])
  | q :: qs =>
    match executeQuery env q.1 q.2 isRaw (some ds) config st with
    | (st1, .error e) => (st1, .error e)
    | (st1, .ok r) =>
      match runQueries env qs isRaw ds config st1 with
      | (st2, .error e) => (st2, .error e)
      | (st2, .ok rs) => (st2, .ok (r :: rs))

/-- `executeTransaction(queries, isRaw, dataSource?, config?)` from the
source: an absent data source short-circuits to `[]`; otherwise the queries
run strictly sequentially through `executeQuery` and the results are collected
in order. -/
def executeTransaction (env : Env) (queries : List (String × JSValue))
    (isRaw : Bool) (dataSource : Option DataSource)
    (config : Option StarbaseDBConfiguration) (st : QState) :
    QState × Except String (List JSValue) :=
  match dataSource with
  | none => (st, .ok [])
  | some ds => runQueries env queries isRaw ds config st

/-! ## The query endpoint (`StarbaseDB.queryRoute`) -/

/-- The structured response produced by `createResponse(result, error, status)`. -/
structure JResponse where
  status : Nat
  result : Option JSValue
  error : Option String

/-- `createResponse(result, error, status)` from src/utils. -/
def createResponse (result : Option JSValue) (error : Option String) (status : Nat) :
    JResponse :=
  ⟨status, result, error⟩

/-- Whether a JS value is `undefined` (the `params !== undefined` test). -/
def JSValue.isUndef : JSValue → Bool
  | .undefined => true
  | _ => false

/-- The per-element validation `transaction.map(queryObj => ...)` performs:
`sql` must have JS type string and trim non-empty, and `params`, when not
`undefined`, must be an array or of JS type "object"; the first violation
throws, before any element is executed. -/
def validateTxEntries : List JSValue → Except String (List (String × JSValue))
  | [] => .ok []
  | q :: qs =>
    match q.getField "sql" with
    | .str s =>
      if trimIsEmpty s then
        .error "Invalid or empty \"sql\" field in transaction."
      else
        let p := q.getField "params"
        if !p.isUndef && !p.isArrayJS && !(p.typeofJS = "object") then
          .error "Invalid \"params\" field in transaction. Must be an array or object."
        else
          match validateTxEntries qs with
          | .error e => .error e
          | .ok rest => .ok ((s, p) :: rest)
    | _ => .error "Invalid or empty \"sql\" field in transaction."

/-- `StarbaseDB.queryRoute(request, isRaw)`.  The request is its `Content-Type`
header and its parsed JSON body.  The enclosing `try` turns every error thrown
during validation-by-`map` or execution into a 500 response carrying the
message; the explicit early returns are 400 responses.  The handler invokes
the operation module's `executeQuery`/`executeTransaction` with the statement,
params, `isRaw`, its data source and its configuration (named fields of the
options object at the call site). -/
def queryRoute (env : Env) (contentType : String) (body : JSValue) (isRaw : Bool)
    (dataSource : Option DataSource) (config : Option StarbaseDBConfiguration)
    (st : QState) : QState × JResponse :=
  if !containsSub "application/json".data contentType.data then
    (st, createResponse none (some "Content-Type must be application/json.") 400)
  else
    match body.getField "transaction" with
    | .arr (q :: qs) =>
      match validateTxEntries (q :: qs) with
      | .error e => (st, createResponse none (some e) 500)
      | .ok queries =>
        match executeTransaction env queries isRaw dataSource config st with
        | (st1, .error e) => (st1, createResponse none (some e) 500)
        | (st1, .ok rs) => (st1, createResponse (some (.arr rs)) none 200)
    | _ =>
      match body.getField "sql" with
      | .str s =>
        if trimIsEmpty s then
          (st, createResponse none (some "Invalid or empty \"sql\" field.") 400)
        else
          let p := body.getField "params"
          if !p.isUndef && !p.isArrayJS && !(p.typeofJS = "object") then
            (st, createResponse none (some "Invalid \"params\" field. Must be an array or object.") 400)
          else
            match executeQuery env s p isRaw dataSource config st with
            | (st1, .error e) => (st1, createResponse none (some e) 500)
            | (st1, .ok r) => (st1, createResponse (some r) none 200)
      | _ => (st, createResponse none (some "Invalid or empty \"sql\" field.") 400)

/-! ## Route registration (`StarbaseDB.handle`) -/

/-- The route that a request matches, following the registration order of
`handle`: the CORS preflight handler `app.options('*')`, then
`POST /query/raw`, `POST /query`, then (feature-gated) `app.all('/rest/*')`,
the export `GET` routes, the import `POST` routes, `app.all('/api/*')`, and
the 404 fallback. -/
inductive MatchedRoute where
  | corsPre
  | queryRaw
  | queryPost
  | rest
  | exportRoute
  | importRoute
  | api
  | notFound
  deriving DecidableEq

/-- Whether a path matches the Hono pattern `/rest/*`. -/
def isRestPath (path : List Char) : Bool :=
  path = "/rest".data || startsWithCL "/rest/".data path

/-- Whether a path matches the Hono pattern `/api/*`. -/
def isApiPath (path : List Char) : Bool :=
  path = "/api".data || startsWithCL "/api/".data path

/-- First-match routing over the table `handle` registers (in registration
order; the context middleware and the plugin registry are pass-through for
the routes under verification). -/
def matchRoute (cfg : StarbaseDBConfiguration) (method : String) (path : List Char) :
    MatchedRoute :=
  if method = "OPTIONS" then .corsPre
  else if method = "POST" && path = "/query/raw".data then .queryRaw
  else if method = "POST" && path = "/query".data then .queryPost
  else if getFeature cfg (·.rest) && isRestPath path then .rest
  else if getFeature cfg (·.exportFlag) && method = "GET" &&
      (path = "/export/dump".data ||
       startsWithCL "/export/json/".data path ||
       startsWithCL "/export/csv/".data path) then .exportRoute
  else if getFeature cfg (·.importFlag) && method = "POST" &&
      (path = "/import/dump".data ||
       startsWithCL "/import/json/".data path ||
       startsWithCL "/import/csv/".data path) then .importRoute
  else if isApiPath path then .api
  else .notFound

/-- What the REST layer does with a request: reply immediately, or proceed to
REST-to-SQL translation and the shared pipeline. -/
inductive RestOutcome where
  | response (r : JResponse)
  | pipeline

/-- Modelled from the spec: `LiteREST.handleRequest` (src/literest.ts is not
part of the snapshot).  Spec §4.6: the REST layer "is available only to
gateways whose DataSource is internal, enforced by a guard that rejects REST
calls when the active source is external"; the fixed internal-only rejection
in this code base is `createResponse(undefined, 'Function is only available
for internal data source.', 400)`, the same response the `isInternalSource`
middleware produces.  On an internal source the handler proceeds to SQL
generation and the shared pipeline. -/
def LiteREST.handleRequest (ds : DataSource) : RestOutcome :=
  if !(ds.source = SourceKind.internal) then
    .response (createResponse none (some "Function is only available for internal data source.") 400)
  else .pipeline

/-- The gateway's handling of one request at the routing level.  `corsPre` is
the response of `corsPreflight()` (src/cors.ts, not part of the snapshot): a
fixed CORS preflight reply computed with no access to the data source — in
particular it is not the internal-only rejection and reaches no SQL
generation. -/
inductive DispatchOutcome where
  | corsPre
  | restOutcome (o : RestOutcome)
  | other (r : MatchedRoute)

/-- Dispatch a request through the registered route table. -/
def dispatchRequest (ds : DataSource) (cfg : StarbaseDBConfiguration)
    (method : String) (path : List Char) : DispatchOutcome :=
  match matchRoute cfg method path with
  | .corsPre => .corsPre
  | .rest => .restOutcome (LiteREST.handleRequest ds)
  | r => .other r

/-! ## Concrete fixtures used by the evaluation theorems -/

/-- A concrete environment: the engine fails on the statement "FAIL" and
returns an empty row set otherwise; the allowlist judgment rejects exactly
"DROP TABLE users"; the RLS rewrite appends a row-visibility predicate. -/
def okEnv : Env :=
  ⟨fun s _ _ => if s = "FAIL" then .error "boom" else .ok (.arr []),
   fun _ _ => .error "sdk unreachable",
   fun _ _ => .error "hosted unreachable",
   fun s => !(s = "DROP TABLE users"),
   fun s => s ++ " WHERE user_id = 1"⟩

/-- The empty pipeline state. -/
def emptySt : QState := ⟨[], []⟩

/-- An internal data source. -/
def dsInternal : DataSource := ⟨.internal, none⟩

/-- An external data source with a postgres connection descriptor. -/
def dsExternal : DataSource := ⟨.external, some ⟨some "postgres", none⟩⟩

/-- A configuration with every feature left to its default. -/
def cfgPlain : StarbaseDBConfiguration := ⟨none, "client", none⟩

/-- A configuration enabling only the RLS feature. -/
def cfgRlsOnly : StarbaseDBConfiguration :=
  ⟨none, "client", some ⟨none, some true, none, none, none, none⟩⟩

/-- A configuration enabling only the allowlist feature. -/
def cfgAllowOnly : StarbaseDBConfiguration :=
  ⟨none, "client", some ⟨some true, none, none, none, none, none⟩⟩

/-- A configuration carrying a hosted execution credential. -/
def cfgKeyed : StarbaseDBConfiguration := ⟨some "key", "admin", none⟩

/-! ## Claim C10 -/

/-- Claim C10: for every call to `executeQuery` or `executeTransaction` in
which `dataSource` is absent, the function returns an empty array without
raising an error and without performing any security check, cache access, or
backend execution (the state — cache and effect trace — is returned
untouched). -/
theorem executeQuery_none_dataSource_returns_empty (env : Env) (sql : String)
    (params : JSValue) (isRaw : Bool) (config : Option StarbaseDBConfiguration)
    (st : QState) (queries : List (String × JSValue)) :
    executeQuery env sql params isRaw none config st = (st, .ok (.arr [])) ∧
    executeTransaction env queries isRaw none config st = (st, .ok []) :=
  ⟨rfl, rfl⟩

/-! ## Claim C9 -/

/-- Claim C9: for every ObjectResult, the object-to-raw transformation
produces columns equal to the key set of the first row (the empty sequence
when there are no rows), rows equal to each row-mapping's values projected in
that column order, `meta.rows_read` equal to the row count of the input, and
`meta.rows_written = 0` always. -/
theorem transformToRaw_spec (rows : List (List (String × JSValue))) :
    (transformToRaw rows).columns =
      (match rows with
       | [] => []
       | r :: _ => keysOf r) ∧
    (transformToRaw rows).rows =
      rows.map (fun r => ((transformToRaw rows).columns).map (lookupField r)) ∧
    (transformToRaw rows).meta.rows_read = rows.length ∧
    (transformToRaw rows).meta.rows_written = 0 := by
  refine ⟨?_, ?_, ?_, ?_⟩
  · cases rows <;> rfl
  · rfl
  · simp [transformToRaw]
  · rfl

/-! ## Claim C6 -/

/-- Claim C6: for every call to `executeQuery` with an external data source,
execution dispatched through `executeExternalQuery` fails with
"External connection not found." regardless of the configured external
connection descriptor: the call site passes five arguments
`(sql, params, isRaw, dataSource, config)` to the four-parameter function, so
the boolean `isRaw` lands in the `dataSource` parameter, whose `external`
property reads as `undefined`.  Stated both for the mis-bound call itself
(first conjunct, for an arbitrary value in the fourth position) and for
`executeQuery` whenever the dispatch stage is reached (allowlist passes and,
in non-raw mode, the cache misses). -/
theorem executeQuery_external_always_fails (env : Env) (sql : String)
    (params : JSValue) (isRaw : Bool) (x : JSValue) (ds : DataSource)
    (config : Option StarbaseDBConfiguration) (st : QState)
    (hsrc : ds.source = .external)
    (hallow : isQueryAllowed env sql (allowlistEnabled config) = .ok ())
    (hmiss : isRaw = false →
      cacheLookup st.cache (applyRLS env sql (rlsEnabled config)) params = none) :
    executeExternalQuery sql params (JSValue.bool isRaw) x = .throwNotFound ∧
    ∃ st2, executeQuery env sql params isRaw (some ds) config st =
        (st2, .error "External connection not found.") ∧
      st2.cache = st.cache ∧ st2.backendLog = st.backendLog := by
  constructor
  · rfl
  · cases hb : isRaw with
    | true =>
      refine ⟨⟨st.cache,
        st.trace ++ [.allowlistCheck sql] ++ [.externalAct .throwNotFound]⟩, ?_, rfl, ?_⟩
      · simp [executeQuery, hallow, dispatchExec, hsrc, beforeQuery,
          executeExternalQuery, JSValue.getField, JSValue.truthy]
      · simp [QState.backendLog, List.filterMap_append]
    | false =>
      refine ⟨⟨st.cache,
        st.trace ++ [.allowlistCheck sql] ++
          [.cacheLookup (applyRLS env sql (rlsEnabled config)) params] ++
          [.externalAct .throwNotFound]⟩, ?_, rfl, ?_⟩
      · simp [executeQuery, hallow, dispatchExec, hsrc, beforeQuery, hmiss hb,
          executeExternalQuery, JSValue.getField, JSValue.truthy]
      · simp [QState.backendLog, List.filterMap_append]

/-- Witness for C6: a concrete external-source call fails with the fixed
error even though the data source carries a postgres connection descriptor. -/
theorem executeQuery_external_always_fails_witness :
    ∃ st2, executeQuery okEnv "SELECT 1" .undefined false (some dsExternal) none emptySt =
        (st2, .error "External connection not found.") ∧
      st2.cache = emptySt.cache ∧ st2.backendLog = emptySt.backendLog :=
  (executeQuery_external_always_fails okEnv "SELECT 1" .undefined false .undefined
    dsExternal none emptySt rfl rfl (fun _ => rfl)).2

/-! ## Claim C2 -/

/-- Claim C2 (code-bug evidence): the source's own comment states that a
query modified by RLS "isn't currently a valid candidate for caching", but
`executeQuery` gates both the cache lookup and the cache write only on
`!isRaw`.  Evaluated here: with RLS enabled and a rewrite that changes the
SQL, a non-raw `executeQuery` pass performs the cache lookup, executes the
backend, and writes a cache entry keyed by the rewritten SQL (third
conjunct); a repeated identical call against the resulting cache is answered
from the cache without reaching the backend (fourth conjunct). -/
theorem executeQuery_caches_rls_modified_query :
    applyRLS okEnv "SELECT * FROM t" (rlsEnabled (some cfgRlsOnly)) =
        "SELECT * FROM t WHERE user_id = 1" ∧
    ("SELECT * FROM t WHERE user_id = 1" : String) ≠ "SELECT * FROM t" ∧
    executeQuery okEnv "SELECT * FROM t" (.arr []) false (some dsInternal)
        (some cfgRlsOnly) emptySt =
      (⟨[(("SELECT * FROM t WHERE user_id = 1", .arr []), .arr [])],
        [.allowlistCheck "SELECT * FROM t",
         .cacheLookup "SELECT * FROM t WHERE user_id = 1" (.arr []),
         .backendExec "SELECT * FROM t WHERE user_id = 1" (.arr []),
         .cacheStore "SELECT * FROM t WHERE user_id = 1" (.arr [])]⟩,
       .ok (.arr [])) ∧
    executeQuery okEnv "SELECT * FROM t" (.arr []) false (some dsInternal)
        (some cfgRlsOnly)
        ⟨[(("SELECT * FROM t WHERE user_id = 1", .arr []), .arr [])], []⟩ =
      (⟨[(("SELECT * FROM t WHERE user_id = 1", .arr []), .arr [])],
        [.allowlistCheck "SELECT * FROM t",
         .cacheLookup "SELECT * FROM t WHERE user_id = 1" (.arr [])]⟩,
       .ok (.arr [])) :=
  ⟨rfl, by decide, rfl, rfl⟩

/-! ## Claim C8 -/

/-- Assignment of a key not yet present appends the binding. -/
lemma setField_of_not_mem {obj : List (String × JSValue)} {k : String} (v : JSValue)
    (h : k ∉ obj.map Prod.fst) : setField obj k v = obj ++ [(k, v)] := by
  induction obj with
  | nil => rfl
  | cons p rest ih =>
    obtain ⟨k2, v2⟩ := p
    simp only [List.map_cons, List.mem_cons] at h
    push_neg at h
    rw [setField, if_neg (fun hk => h.1 hk.symm), ih h.2]
    rfl

/-- Folding assignments of pairwise-distinct fresh keys over an object appends
all the bindings in order. -/
lemma foldl_setField_append :
    ∀ (ps : List (String × JSValue)) (obj : List (String × JSValue)),
      (∀ p ∈ ps, p.1 ∉ obj.map Prod.fst) → (ps.map Prod.fst).Nodup →
      ps.foldl (fun o p => setField o p.1 p.2) obj = obj ++ ps := by
  intro ps
  induction ps with
  | nil => intro obj _ _; simp
  | cons p rest ih =>
    intro obj hmem hnd
    simp only [List.map_cons, List.nodup_cons] at hnd
    rw [List.foldl_cons, setField_of_not_mem p.2 (hmem p (List.mem_cons_self p rest))]
    rw [ih (obj ++ [(p.1, p.2)])]
    · simp
    · intro q hq
      simp only [List.map_append, List.mem_append, List.map_cons, List.map_nil,
        List.mem_singleton]
      rintro (h | h)
      · exact hmem q (List.mem_cons_of_mem _ hq) h
      · exact hnd.1 (h ▸ List.mem_map_of_mem Prod.fst hq)
    · exact hnd.2

/-- Zipping characterization of an `enumFrom`-indexed projection: reading the
suffix `vs` of `pre ++ vs` through absolute indices starting at `pre.length`
pairs the columns with the row values. -/
lemma enumFrom_getD_zip :
    ∀ (cols : List String) (vs pre : List JSValue), vs.length = cols.length →
      (List.enumFrom pre.length cols).map
          (fun p => (p.2, (pre ++ vs).getD p.1 JSValue.undefined)) =
        cols.zip vs := by
  intro cols
  induction cols with
  | nil =>
    intro vs pre h
    simp
  | cons c cs ih =>
    intro vs pre h
    match vs with
    | [] => simp at h
    | v :: vs2 =>
      simp only [List.enumFrom_cons, List.map_cons, List.zip_cons_cons]
      have hhead : (pre ++ v :: vs2).getD pre.length JSValue.undefined = v := by
        simp only [List.getD, List.get?_eq_getElem?]
        rw [List.getElem?_append_right (Nat.le_refl pre.length)]
        simp
      rw [hhead]
      have h3 := ih vs2 (pre ++ [v]) (by simpa using h)
      exact congrArg (List.cons (c, v))
        (by simpa [List.append_assoc, List.length_append] using h3)

/-- For duplicate-free columns and a row of matching length, the inner
`reduce` of `transformRawResults(_, "from")` builds exactly the zip of the
columns with the row values. -/
lemma buildRow_eq_zip {cols : List String} {row : List JSValue}
    (hnd : cols.Nodup) (hlen : row.length = cols.length) :
    buildRow cols row = cols.zip row := by
  have hz := enumFrom_getD_zip cols row [] hlen
  simp only [List.nil_append, List.length_nil] at hz
  have hfold : buildRow cols row =
      ((cols.enum).map (fun p => (p.2, row.getD p.1 JSValue.undefined))).foldl
        (fun o q => setField o q.1 q.2) [] := by
    rw [buildRow, List.foldl_map]
  have hkeys : ((cols.enum).map (fun p => (p.2, row.getD p.1 JSValue.undefined))).map
      Prod.fst = cols := by
    rw [List.map_map]
    exact List.enum_map_snd cols
  rw [hfold, foldl_setField_append _ _ (by simp) (by rw [hkeys]; exact hnd),
    List.nil_append]
  exact hz

/-- Projecting the zip of duplicate-free columns with a row of matching
length in column order recovers the row. -/
lemma map_lookupField_zip :
    ∀ (cols : List String) (vs : List JSValue), cols.Nodup → vs.length = cols.length →
      cols.map (fun c => lookupField (cols.zip vs) c) = vs := by
  intro cols
  induction cols with
  | nil =>
    intro vs _ h
    simp only [List.length_nil, List.length_eq_zero] at h
    simp [h]
  | cons c cs ih =>
    intro vs hnd hlen
    match vs with
    | [] => simp at hlen
    | v :: vs2 =>
      simp only [List.zip_cons_cons, List.map_cons]
      simp only [List.nodup_cons] at hnd
      have hhead : lookupField ((c, v) :: cs.zip vs2) c = v := by
        simp [lookupField]
      have htail : cs.map (fun c2 => lookupField ((c, v) :: cs.zip vs2) c2) =
          cs.map (fun c2 => lookupField (cs.zip vs2) c2) := by
        apply List.map_congr_left
        intro c2 hc2
        have hne : ¬(c = c2) := fun he => hnd.1 (he ▸ hc2)
        simp [lookupField, List.find?, hne]
      rw [hhead, htail, ih vs2 hnd.2 (by simpa using hlen)]

/-- Claim C8 (counterexample): a RawResult with a non-empty column list and
no rows vacuously satisfies "all rows share identical keys after conversion",
yet from-then-to does not round-trip — the resulting column list is empty,
not the original one. -/
def rawEmptyRows : RawResult := ⟨["a"], [], ⟨0, 0⟩⟩

/-- Claim C8 is false as stated: at `rawEmptyRows` every converted row shares
identical keys (vacuously), but the round-trip loses the columns. -/
theorem roundtrip_loses_columns_on_empty_rows :
    (∀ rowObj ∈ transformFromRaw rawEmptyRows,
        keysOf rowObj = keysOf ((transformFromRaw rawEmptyRows).headD [])) ∧
    (transformToRaw (transformFromRaw rawEmptyRows)).columns ≠ rawEmptyRows.columns := by
  constructor
  · intro rowObj h
    simp [transformFromRaw, rawEmptyRows] at h
  · decide

/-- Claim C8 (amended): for every RawResult with at least one row, duplicate-
free column names, and rows whose lengths match the column count, applying the
transformer raw-to-object ("from") and then object-to-raw ("to") round-trips
the column and row content.  (The empty-rows case of the counterexample — and
likewise duplicate columns or length-mismatched rows — breaks the round
trip.) -/
theorem transform_roundtrip (r : RawResult) (hne : r.rows ≠ [])
    (hnd : r.columns.Nodup)
    (hlen : ∀ row ∈ r.rows, row.length = r.columns.length) :
    (transformToRaw (transformFromRaw r)).columns = r.columns ∧
    (transformToRaw (transformFromRaw r)).rows = r.rows := by
  have hfrom : transformFromRaw r = r.rows.map (fun row => r.columns.zip row) := by
    unfold transformFromRaw
    apply List.map_congr_left
    intro row hrow
    exact buildRow_eq_zip hnd (hlen row hrow)
  obtain ⟨row0, rest, hr⟩ : ∃ a l, r.rows = a :: l := by
    cases hrows : r.rows with
    | nil => exact absurd hrows hne
    | cons a l => exact ⟨a, l, rfl⟩
  have hrow0 : row0 ∈ r.rows := by
    rw [hr]
    exact List.mem_cons_self _ _
  have hcols : keysOf (((r.rows.map (fun row => r.columns.zip row))).headD []) =
      r.columns := by
    rw [hr]
    simp only [List.map_cons, List.headD_cons, keysOf]
    exact List.map_fst_zip _ _ (le_of_eq (hlen row0 hrow0).symm)
  constructor
  · show keysOf ((transformFromRaw r).headD []) = r.columns
    rw [hfrom]
    exact hcols
  · show (transformFromRaw r).map
        (fun row => (keysOf ((transformFromRaw r).headD [])).map (lookupField row)) =
      r.rows
    rw [hfrom, hcols, List.map_map]
    have : ∀ row ∈ r.rows,
        ((fun row => r.columns.map (lookupField row)) ∘
          (fun row => r.columns.zip row)) row = row := by
      intro row hrow
      simp only [Function.comp]
      exact map_lookupField_zip r.columns row hnd (hlen row hrow)
    rw [List.map_congr_left this]
    simp

/-! ## Claim C3 -/

/-- The keys `param0, param1, ...` are pairwise distinct. -/
lemma paramKey_injective : Function.Injective (fun i : Nat => "param" ++ toString i) := by
  intro a b h
  have hd := congrArg String.data h
  simp only [String.data_append] at hd
  have ht : (toString a).data = (toString b).data := List.append_cancel_left hd
  apply natToString_injective
  cases ha : toString a with
  | mk la =>
    cases hb : toString b with
    | mk lb =>
      rw [ha, hb] at ht
      simp only at ht
      rw [ht]

/-- The parameter-object fold builds exactly the list of
`(param<i>, v_i)` pairs in order: the claim's mapping
`{param0: v0, param1: v1, ...}`. -/
lemma paramsToNamed_eq (vs : List JSValue) :
    paramsToNamed vs = (vs.enum).map (fun p => ("param" ++ toString p.1, p.2)) := by
  have hfold : paramsToNamed vs =
      ((vs.enum).map (fun p => ("param" ++ toString p.1, p.2))).foldl
        (fun o q => setField o q.1 q.2) [] := by
    rw [paramsToNamed, List.foldl_map]
  have hkeys : ((vs.enum).map (fun p => ("param" ++ toString p.1, p.2))).map Prod.fst =
      (List.range vs.length).map (fun i => "param" ++ toString i) := by
    rw [List.map_map, ← List.enum_map_fst vs, List.map_map]
    rfl
  rw [hfold, foldl_setField_append _ _ (by simp)
    (by rw [hkeys]; exact (List.nodup_range _).map paramKey_injective), List.nil_append]

/-- Spec-side view of the placeholder rewrite: the pieces of the SQL text
between the `?` occurrences, in order. -/
def splitOnQ : List Char → List (List Char)
  | [] => [[]]
  | c :: cs =>
    if c = '?' then [] :: splitOnQ cs
    else
      match splitOnQ cs with
      | [] => [[c]]
      | p :: ps => (c :: p) :: ps

/-- Spec-side view of the placeholder rewrite: interleave the pieces with
`:param<n>`, numbering the gaps left to right from `n`. -/
def joinParts : List (List Char) → Nat → List Char
  | [], _ => []
  | [p], _ => p
  | p :: ps, n => p ++ (":param" ++ toString n).data ++ joinParts ps (n + 1)

lemma splitOnQ_ne_nil : ∀ s : List Char, splitOnQ s ≠ []
  | [] => by simp [splitOnQ]
  | c :: cs => by
    rw [splitOnQ]
    by_cases h : c = '?'
    · simp [h]
    · rw [if_neg h]
      cases hs : splitOnQ cs <;> simp

/-- The source's counter-based global replace agrees with the spec-side
split-and-interleave description: the k-th `?` (zero-based, counting from
`n`) becomes `:param<n+k>`. -/
lemma rewriteQs_eq_joinParts : ∀ (s : List Char) (n : Nat),
    rewriteQs s n = joinParts (splitOnQ s) n := by
  intro s
  induction s with
  | nil => intro n; rfl
  | cons c cs ih =>
    intro n
    by_cases h : c = '?'
    · rw [rewriteQs, if_pos h, splitOnQ, if_pos h]
      obtain ⟨p, ps, hps⟩ : ∃ p ps, splitOnQ cs = p :: ps := by
        cases hs : splitOnQ cs with
        | nil => exact absurd hs (splitOnQ_ne_nil cs)
        | cons p ps => exact ⟨p, ps, rfl⟩
      rw [hps, ih (n + 1), hps]
      rfl
    · rw [rewriteQs, if_neg h, splitOnQ, if_neg h, ih n]
      cases hs : splitOnQ cs with
      | nil => exact absurd hs (splitOnQ_ne_nil cs)
      | cons p ps =>
        cases ps with
        | nil => rfl
        | cons q qs => rfl

/-- Claim C3: with a hosted execution credential configured and an external
connection present, `executeExternalQuery` takes the hosted-proxy path and
(first conjunct) for an array `params` sends the SQL with each `?` in source
order replaced by `:paramN` (N the zero-based occurrence index, equivalently
the split-and-interleave form) and the params converted to the mapping
`param0 ↦ v0, param1 ↦ v1, ...`, with newlines collapsed to spaces before
transmission; and (second conjunct) passes non-array params through
unchanged, again with newlines collapsed. -/
theorem hosted_proxy_rewrite (sql : String) (vs : List JSValue) (p : JSValue)
    (ds : DataSource) (cfg : StarbaseDBConfiguration) (e : ExternalConn) (k : String)
    (hext : ds.external = some e) (hkey : cfg.outerbaseApiKey = some k)
    (hk : ¬(k = "")) :
    (executeExternalQuery sql (.arr vs) ds.toJS cfg.toJS
        = .hostedFetch ((collapseNewlines (rewriteQs sql.data 0)).asString)
            (.obj ((vs.enum).map (fun q => ("param" ++ toString q.1, q.2)))) ∧
      rewriteQs sql.data 0 = joinParts (splitOnQ sql.data) 0) ∧
    (p.isArrayJS = false →
      executeExternalQuery sql p ds.toJS cfg.toJS
        = .hostedFetch ((collapseNewlines sql.data).asString) p) := by
  have hguard : (JSValue.getField ds.toJS "external").truthy = true := by
    simp [DataSource.toJS, hext, ExternalConn.toJS, JSValue.getField, JSValue.truthy]
  have happi : (JSValue.getField cfg.toJS "outerbaseApiKey").truthy = true := by
    simp [StarbaseDBConfiguration.toJS, hkey, JSValue.getField, JSValue.truthy, hk]
  refine ⟨⟨?_, rewriteQs_eq_joinParts sql.data 0⟩, ?_⟩
  · rw [executeExternalQuery, if_neg (by simp [hguard]), if_neg (by simp [happi])]
    rw [paramsToNamed_eq]
  · intro hp
    cases p with
    | arr es => simp [JSValue.isArrayJS] at hp
    | undefined => simp [executeExternalQuery, hguard, happi]
    | null => simp [executeExternalQuery, hguard, happi]
    | bool b => simp [executeExternalQuery, hguard, happi]
    | num n => simp [executeExternalQuery, hguard, happi]
    | str s => simp [executeExternalQuery, hguard, happi]
    | obj fs => simp [executeExternalQuery, hguard, happi]

/-- Witness for C3: the specification's own example.  The request sent is
`SELECT * FROM t WHERE a=:param0 AND b=:param1` with the mapping
`param0 ↦ 1, param1 ↦ "x"`. -/
theorem hosted_proxy_rewrite_witness :
    executeExternalQuery "SELECT * FROM t WHERE a=? AND b=?"
        (.arr [.num 1, .str "x"]) dsExternal.toJS cfgKeyed.toJS
      = .hostedFetch "SELECT * FROM t WHERE a=:param0 AND b=:param1"
          (.obj [("param0", .num 1), ("param1", .str "x")]) := by
  have h := (hosted_proxy_rewrite "SELECT * FROM t WHERE a=? AND b=?"
    [.num 1, .str "x"] .undefined dsExternal cfgKeyed ⟨some "postgres", none⟩ "key"
    rfl rfl (by decide)).1.1
  rw [h]
  rfl

/-! ## Claim C4 -/

/-- The backend dispatch stage returns the incoming state with exactly one
effect appended and the cache untouched. -/
lemma dispatchExec_state (env : Env) (s : String) (p : JSValue) (b : Bool)
    (ds : DataSource) (st : QState) :
    ∃ eff, (dispatchExec env s p b ds st).1 = ⟨st.cache, st.trace ++ [eff]⟩ := by
  cases hds : ds.source with
  | internal => exact ⟨.backendExec s p, by simp [dispatchExec, hds]⟩
  | external =>
    cases hact : executeExternalQuery s p (JSValue.bool b) ds.toJS with
    | throwNotFound =>
      exact ⟨.externalAct .throwNotFound, by simp [dispatchExec, hds, hact]⟩
    | sdkQuery s2 p2 =>
      exact ⟨.externalAct (.sdkQuery s2 p2), by simp [dispatchExec, hds, hact]⟩
    | hostedFetch q2 p2 =>
      exact ⟨.externalAct (.hostedFetch q2 p2), by simp [dispatchExec, hds, hact]⟩

/-- One `executeQuery` pass only appends to the effect trace and only
prepends to the cache: no effect of an earlier pass is undone. -/
lemma executeQuery_state_shape (env : Env) (sql : String) (params : JSValue)
    (isRaw : Bool) (dsOpt : Option DataSource)
    (cfg : Option StarbaseDBConfiguration) (st : QState) :
    ∃ t c, (executeQuery env sql params isRaw dsOpt cfg st).1 =
      ⟨c ++ st.cache, st.trace ++ t⟩ := by
  cases dsOpt with
  | none => exact ⟨[], [], by simp [executeQuery]⟩
  | some ds =>
    simp only [executeQuery, beforeQuery]
    cases hall : isQueryAllowed env sql (allowlistEnabled cfg) with
    | error e => exact ⟨[.allowlistCheck sql], [], rfl⟩
    | ok u =>
      cases u
      cases isRaw with
      | true =>
        simp only [if_true]
        obtain ⟨eff, heff⟩ := dispatchExec_state env
          (applyRLS env sql (rlsEnabled cfg)) params true ds
          ⟨st.cache, st.trace ++ [.allowlistCheck sql]⟩
        cases hd : dispatchExec env (applyRLS env sql (rlsEnabled cfg)) params true ds
            ⟨st.cache, st.trace ++ [.allowlistCheck sql]⟩ with
        | mk st2 r =>
          have hst2 : st2 = ⟨st.cache, st.trace ++ [.allowlistCheck sql] ++ [eff]⟩ := by
            have := congrArg Prod.fst hd
            simp only at this
            rw [← this, heff]
          cases r with
          | error e =>
            exact ⟨[.allowlistCheck sql] ++ [eff], [],
              by simp [hd, hst2, List.append_assoc]⟩
          | ok resp =>
            exact ⟨[.allowlistCheck sql] ++ [eff], [],
              by simp [hd, hst2, List.append_assoc]⟩
      | false =>
        simp only [if_false]
        cases hc : cacheLookup st.cache (applyRLS env sql (rlsEnabled cfg)) params with
        | some cached =>
          exact ⟨[.allowlistCheck sql,
            .cacheLookup (applyRLS env sql (rlsEnabled cfg)) params], [],
            by simp [hc, List.append_assoc]⟩
        | none =>
          obtain ⟨eff, heff⟩ := dispatchExec_state env
            (applyRLS env sql (rlsEnabled cfg)) params false ds
            ⟨st.cache, st.trace ++ [.allowlistCheck sql] ++
              [.cacheLookup (applyRLS env sql (rlsEnabled cfg)) params]⟩
          cases hd : dispatchExec env (applyRLS env sql (rlsEnabled cfg)) params false ds
              ⟨st.cache, st.trace ++ [.allowlistCheck sql] ++
                [.cacheLookup (applyRLS env sql (rlsEnabled cfg)) params]⟩ with
          | mk st2 r =>
            have hst2 : st2 = ⟨st.cache, st.trace ++ [.allowlistCheck sql] ++
                [.cacheLookup (applyRLS env sql (rlsEnabled cfg)) params] ++ [eff]⟩ := by
              have := congrArg Prod.fst hd
              simp only at this
              rw [← this, heff]
            cases r with
            | error e =>
              refine ⟨[.allowlistCheck sql,
                .cacheLookup (applyRLS env sql (rlsEnabled cfg)) params, eff], [], ?_⟩
              simp [hc, hd, hst2, List.append_assoc]
            | ok resp =>
              refine ⟨[.allowlistCheck sql,
                .cacheLookup (applyRLS env sql (rlsEnabled cfg)) params, eff,
                .cacheStore (applyRLS env sql (rlsEnabled cfg)) params],
                [((applyRLS env sql (rlsEnabled cfg), params), resp)], ?_⟩
              simp [hc, hd, hst2, cacheStoreEntry, List.append_assoc]

/-- A later pass can only extend the backend log. -/
lemma executeQuery_backendLog_mono (env : Env) (sql : String) (params : JSValue)
    (isRaw : Bool) (dsOpt : Option DataSource)
    (cfg : Option StarbaseDBConfiguration) (st : QState) :
    ∃ t, (executeQuery env sql params isRaw dsOpt cfg st).1.backendLog =
      st.backendLog ++ t := by
  obtain ⟨t, c, h⟩ := executeQuery_state_shape env sql params isRaw dsOpt cfg st
  refine ⟨t.filterMap (fun e =>
    match e with
    | .backendExec s p => some (s, p)
    | _ => none), ?_⟩
  rw [h]
  simp [QState.backendLog, List.filterMap_append]

/-- Running a prefix that fully succeeds, then appending more queries,
continues from the reached state. -/
lemma runQueries_append_ok (env : Env) (isRaw : Bool) (ds : DataSource)
    (cfg : Option StarbaseDBConfiguration) :
    ∀ (qs1 : List (String × JSValue)) (l : List (String × JSValue)) (st st1 : QState)
      (rs : List JSValue),
      runQueries env qs1 isRaw ds cfg st = (st1, .ok rs) →
      runQueries env (qs1 ++ l) isRaw ds cfg st =
        (match runQueries env l isRaw ds cfg st1 with
         | (st2, .error e) => (st2, .error e)
         | (st2, .ok rs2) => (st2, .ok (rs ++ rs2))) := by
  intro qs1
  induction qs1 with
  | nil =>
    intro l st st1 rs h
    simp only [runQueries] at h
    injection h with hst hrs
    injection hrs with hrs
    subst hst
    subst hrs
    simp only [List.nil_append]
    cases hrun : runQueries env l isRaw ds cfg st with
    | mk st2 r =>
      cases r with
      | error e => simp
      | ok rs2 => simp
  | cons q qs ih =>
    intro l st st1 rs h
    simp only [runQueries] at h
    rw [List.cons_append]
    cases hq : executeQuery env q.1 q.2 isRaw (some ds) cfg st with
    | mk stq rq =>
      rw [hq] at h
      cases rq with
      | error e => simp at h
      | ok r =>
        simp only at h
        cases hrest : runQueries env qs isRaw ds cfg stq with
        | mk st2 r2 =>
          rw [hrest] at h
          cases r2 with
          | error e => simp at h
          | ok rs2 =>
            simp only [Prod.mk.injEq] at h
            obtain ⟨hst, hrs⟩ := h
            injection hrs with hrs
            rw [hst] at hrest
            simp only [runQueries, hq]
            rw [ih l stq st1 rs2 hrest]
            cases hl : runQueries env l isRaw ds cfg st1 with
            | mk st3 r3 =>
              cases r3 with
              | error e2 => simp
              | ok rs3 => simp [← hrs, List.append_assoc]

/-- Claim C4: for every non-empty batch, `executeTransaction` executes the
elements strictly sequentially in list order, each as an independent full
`executeQuery` pass; if some element fails, the remaining elements are not
executed (the final state and single error are those reached at the failing
element and do not depend on the rest of the batch), the enclosing batch
yields a single error carrying that message and no partial results, and the
backend effects of the earlier, already-executed elements are not undone
(their backend log is a preserved frozen part of the final log). -/
theorem executeTransaction_aborts_on_failure (env : Env)
    (qs1 qs2 : List (String × JSValue)) (q : String × JSValue) (isRaw : Bool)
    (ds : DataSource) (cfg : Option StarbaseDBConfiguration) (st st1 st2 : QState)
    (rs : List JSValue) (e : String)
    (h1 : runQueries env qs1 isRaw ds cfg st = (st1, .ok rs))
    (h2 : executeQuery env q.1 q.2 isRaw (some ds) cfg st1 = (st2, .error e)) :
    executeTransaction env (qs1 ++ q :: qs2) isRaw (some ds) cfg st =
      (st2, .error e) ∧
    ∃ t, st2.backendLog = st1.backendLog ++ t := by
  constructor
  · show runQueries env (qs1 ++ q :: qs2) isRaw ds cfg st = (st2, .error e)
    rw [runQueries_append_ok env isRaw ds cfg qs1 (q :: qs2) st st1 rs h1]
    simp only [runQueries, h2]
  · have := executeQuery_backendLog_mono env q.1 q.2 isRaw (some ds) cfg st1
    rwa [h2] at this

/-- Witness for C4: a two-successes-then-failure batch.  The failing third
element aborts the batch with the single error "boom"; the first element's
backend write is still present in the final backend log; the fourth element
is never executed (no trace of it appears). -/
theorem executeTransaction_aborts_on_failure_witness :
    executeTransaction okEnv
        [("INSERT INTO t VALUES (1)", .undefined), ("FAIL", .undefined),
         ("NEVER RUN", .undefined)] false (some dsInternal) (some cfgPlain)
        emptySt =
      (⟨[(("INSERT INTO t VALUES (1)", .undefined), .arr [])],
        [.allowlistCheck "INSERT INTO t VALUES (1)",
         .cacheLookup "INSERT INTO t VALUES (1)" .undefined,
         .backendExec "INSERT INTO t VALUES (1)" .undefined,
         .cacheStore "INSERT INTO t VALUES (1)" .undefined,
         .allowlistCheck "FAIL",
         .cacheLookup "FAIL" .undefined,
         .backendExec "FAIL" .undefined]⟩,
       .error "boom") := by
  have h := executeTransaction_aborts_on_failure okEnv
    [("INSERT INTO t VALUES (1)", .undefined)] [("NEVER RUN", .undefined)]
    ("FAIL", .undefined) false dsInternal (some cfgPlain) emptySt
    (⟨[(("INSERT INTO t VALUES (1)", .undefined), .arr [])],
      [.allowlistCheck "INSERT INTO t VALUES (1)",
       .cacheLookup "INSERT INTO t VALUES (1)" .undefined,
       .backendExec "INSERT INTO t VALUES (1)" .undefined,
       .cacheStore "INSERT INTO t VALUES (1)" .undefined]⟩)
    (⟨[(("INSERT INTO t VALUES (1)", .undefined), .arr [])],
      [.allowlistCheck "INSERT INTO t VALUES (1)",
       .cacheLookup "INSERT INTO t VALUES (1)" .undefined,
       .backendExec "INSERT INTO t VALUES (1)" .undefined,
       .cacheStore "INSERT INTO t VALUES (1)" .undefined,
       .allowlistCheck "FAIL",
       .cacheLookup "FAIL" .undefined,
       .backendExec "FAIL" .undefined]⟩)
    [.arr []] "boom" rfl rfl
  exact h.1

/-! ## Claim C5 -/

/-- The transaction-branch test `Array.isArray(transaction) && transaction.length`. -/
def txTaken (v : JSValue) : Bool :=
  match v with
  | .arr (_ :: _) => true
  | _ => false

/-- A batch element the validation `map` rejects: `sql` not a string or
trimming to empty, or `params` present but neither an array nor of JS type
"object". -/
def txEntryInvalid (q : JSValue) : Bool :=
  match q.getField "sql" with
  | .str s =>
    trimIsEmpty s ||
      (!(q.getField "params").isUndef && !(q.getField "params").isArrayJS &&
        !((q.getField "params").typeofJS = "object"))
  | _ => true

/-- A request body carrying `params: null`. -/
def bodyNullParams : JSValue :=
  .obj [("sql", .str "SELECT 1"), ("params", .null)]

/-- Claim C5 is false as stated: `params: null` is neither an array nor a
plain mapping, yet the request is not rejected as a validation error —
because `typeof null` is "object" the query executes against the backend and
the endpoint answers 200. -/
theorem queryRoute_accepts_null_params :
    JSValue.isArrayJS .null = false ∧
    (∀ fs, JSValue.null ≠ .obj fs) ∧
    (queryRoute okEnv "application/json" bodyNullParams false (some dsInternal)
        (some cfgPlain) emptySt).2 = createResponse (some (.arr [])) none 200 ∧
    (queryRoute okEnv "application/json" bodyNullParams false (some dsInternal)
        (some cfgPlain) emptySt).1.backendLog = [("SELECT 1", .null)] := by
  refine ⟨rfl, fun fs h => JSValue.noConfusion h, rfl, rfl⟩

/-- Any invalid element makes the validation `map` of the transaction branch
throw (so the whole batch fails during validation). -/
lemma validateTx_error_of_invalid :
    ∀ l : List JSValue, (∃ x ∈ l, txEntryInvalid x = true) →
      ∃ e, validateTxEntries l = .error e := by
  intro l
  induction l with
  | nil =>
    rintro ⟨x, hx, _⟩
    cases hx
  | cons q qs ih =>
    rintro ⟨x, hx, hinv⟩
    rw [List.mem_cons] at hx
    cases hx with
    | inl hxq =>
      subst hxq
      rw [txEntryInvalid] at hinv
      cases hs : x.getField "sql" with
      | str s =>
        rw [hs] at hinv
        simp only [Bool.or_eq_true] at hinv
        cases hinv with
        | inl htrim => exact ⟨"Invalid or empty \"sql\" field in transaction.", by simp [validateTxEntries, hs, htrim]⟩
        | inr hbad =>
          by_cases htrim : trimIsEmpty s
          · exact ⟨"Invalid or empty \"sql\" field in transaction.", by simp [validateTxEntries, hs, htrim]⟩
          · exact ⟨"Invalid \"params\" field in transaction. Must be an array or object.", by simp [validateTxEntries, hs, htrim, hbad]⟩
      | undefined => exact ⟨"Invalid or empty \"sql\" field in transaction.", by simp [validateTxEntries, hs]⟩
      | null => exact ⟨"Invalid or empty \"sql\" field in transaction.", by simp [validateTxEntries, hs]⟩
      | bool b => exact ⟨"Invalid or empty \"sql\" field in transaction.", by simp [validateTxEntries, hs]⟩
      | num n => exact ⟨"Invalid or empty \"sql\" field in transaction.", by simp [validateTxEntries, hs]⟩
      | arr es => exact ⟨"Invalid or empty \"sql\" field in transaction.", by simp [validateTxEntries, hs]⟩
      | obj fs => exact ⟨"Invalid or empty \"sql\" field in transaction.", by simp [validateTxEntries, hs]⟩
    | inr hxqs =>
      cases hs : q.getField "sql" with
      | str s =>
        by_cases htrim : trimIsEmpty s
        · exact ⟨"Invalid or empty \"sql\" field in transaction.", by simp [validateTxEntries, hs, htrim]⟩
        · by_cases hbad : (!(q.getField "params").isUndef &&
              !(q.getField "params").isArrayJS &&
              !((q.getField "params").typeofJS = "object")) = true
          · exact ⟨"Invalid \"params\" field in transaction. Must be an array or object.", by simp [validateTxEntries, hs, htrim, hbad]⟩
          · obtain ⟨e, he⟩ := ih ⟨x, hxqs, hinv⟩
            refine ⟨e, ?_⟩
            simp only [validateTxEntries, hs, he]
            rw [if_neg (by simpa using htrim), if_neg (by simpa using hbad)]
      | undefined => exact ⟨"Invalid or empty \"sql\" field in transaction.", by simp [validateTxEntries, hs]⟩
      | null => exact ⟨"Invalid or empty \"sql\" field in transaction.", by simp [validateTxEntries, hs]⟩
      | bool b => exact ⟨"Invalid or empty \"sql\" field in transaction.", by simp [validateTxEntries, hs]⟩
      | num n => exact ⟨"Invalid or empty \"sql\" field in transaction.", by simp [validateTxEntries, hs]⟩
      | arr es => exact ⟨"Invalid or empty \"sql\" field in transaction.", by simp [validateTxEntries, hs]⟩
      | obj fs => exact ⟨"Invalid or empty \"sql\" field in transaction.", by simp [validateTxEntries, hs]⟩

/-- Claim C5 (amended): a query request is rejected unless the body declares
structured-data content and, for a single statement, `sql` is a string that
trims non-empty while `params` (when present) is an array or of JS type
"object" — which admits `null` in addition to plain mappings; params of any
other JS type is a 400 validation error issued before any effect.  For a
batch, every element is checked against the same rules and a violation in any
element fails the whole batch — through the generic error path, as a 500
carrying the validation message — before any element is executed (the state
is returned untouched). -/
theorem queryRoute_validation (env : Env) (ct : String) (body : JSValue)
    (isRaw : Bool) (dsOpt : Option DataSource)
    (cfg : Option StarbaseDBConfiguration) (st : QState) :
    (containsSub "application/json".data ct.data = false →
      queryRoute env ct body isRaw dsOpt cfg st =
        (st, createResponse none (some "Content-Type must be application/json.") 400)) ∧
    (∀ s, containsSub "application/json".data ct.data = true →
      txTaken (body.getField "transaction") = false →
      body.getField "sql" = .str s → trimIsEmpty s = true →
      queryRoute env ct body isRaw dsOpt cfg st =
        (st, createResponse none (some "Invalid or empty \"sql\" field.") 400)) ∧
    (∀ s, containsSub "application/json".data ct.data = true →
      txTaken (body.getField "transaction") = false →
      body.getField "sql" = .str s → trimIsEmpty s = false →
      (body.getField "params").isUndef = false →
      (body.getField "params").isArrayJS = false →
      ¬((body.getField "params").typeofJS = "object") →
      queryRoute env ct body isRaw dsOpt cfg st =
        (st, createResponse none
          (some "Invalid \"params\" field. Must be an array or object.") 400)) ∧
    (∀ q qs e, containsSub "application/json".data ct.data = true →
      body.getField "transaction" = .arr (q :: qs) →
      validateTxEntries (q :: qs) = .error e →
      queryRoute env ct body isRaw dsOpt cfg st =
        (st, createResponse none (some e) 500)) ∧
    (∀ q qs, body.getField "transaction" = .arr (q :: qs) →
      (∃ x ∈ q :: qs, txEntryInvalid x = true) →
      ∃ e, validateTxEntries (q :: qs) = .error e) := by
  refine ⟨?_, ?_, ?_, ?_, ?_⟩
  · intro hct
    simp [queryRoute, hct]
  · intro s hct htx hsql htrim
    cases hv : body.getField "transaction" with
    | arr es =>
      cases es with
      | nil => simp [queryRoute, hct, hv, hsql, htrim]
      | cons q qs => rw [hv] at htx; simp [txTaken] at htx
    | undefined => simp [queryRoute, hct, hv, hsql, htrim]
    | null => simp [queryRoute, hct, hv, hsql, htrim]
    | bool b => simp [queryRoute, hct, hv, hsql, htrim]
    | num n => simp [queryRoute, hct, hv, hsql, htrim]
    | str s2 => simp [queryRoute, hct, hv, hsql, htrim]
    | obj fs => simp [queryRoute, hct, hv, hsql, htrim]
  · intro s hct htx hsql htrim hpu hpa hpt
    cases hv : body.getField "transaction" with
    | arr es =>
      cases es with
      | nil => simp [queryRoute, hct, hv, hsql, htrim, hpu, hpa, hpt]
      | cons q qs => rw [hv] at htx; simp [txTaken] at htx
    | undefined => simp [queryRoute, hct, hv, hsql, htrim, hpu, hpa, hpt]
    | null => simp [queryRoute, hct, hv, hsql, htrim, hpu, hpa, hpt]
    | bool b => simp [queryRoute, hct, hv, hsql, htrim, hpu, hpa, hpt]
    | num n => simp [queryRoute, hct, hv, hsql, htrim, hpu, hpa, hpt]
    | str s2 => simp [queryRoute, hct, hv, hsql, htrim, hpu, hpa, hpt]
    | obj fs => simp [queryRoute, hct, hv, hsql, htrim, hpu, hpa, hpt]
  · intro q qs e hct hv hval
    simp [queryRoute, hct, hv, hval]
  · intro q qs _ hinv
    exact validateTx_error_of_invalid (q :: qs) hinv

/-- Witness for the amended C5: string-typed `params` is rejected with the
400 validation response and no effect, by the third conjunct of the
validation theorem. -/
theorem queryRoute_validation_witness :
    queryRoute okEnv "application/json"
        (.obj [("sql", .str "SELECT 1"), ("params", .str "oops")]) false
        (some dsInternal) (some cfgPlain) emptySt =
      (emptySt, createResponse none
        (some "Invalid \"params\" field. Must be an array or object.") 400) :=
  ((queryRoute_validation okEnv "application/json"
      (.obj [("sql", .str "SELECT 1"), ("params", .str "oops")]) false
      (some dsInternal) (some cfgPlain) emptySt).2.2.1) "SELECT 1" rfl rfl rfl rfl
    rfl rfl (by decide)

/-! ## Claim C7 -/

/-- A security (allowlist) rejection surfaces from `executeQuery` as a thrown
error carrying the fixed message, with only the allowlist check traced. -/
lemma executeQuery_allowlist_reject (env : Env) (sql : String) (p : JSValue)
    (isRaw : Bool) (ds : DataSource) (cfg : Option StarbaseDBConfiguration)
    (st : QState) (hae : allowlistEnabled cfg = true) (hnal : env.allowed sql = false) :
    executeQuery env sql p isRaw (some ds) cfg st =
      (⟨st.cache, st.trace ++ [.allowlistCheck sql]⟩, .error "Query not allowed") := by
  simp [executeQuery, isQueryAllowed, hae, hnal]

/-- A backend execution failure surfaces from `executeQuery` as a thrown error
carrying the engine's message. -/
lemma executeQuery_backend_error (env : Env) (sql : String) (p : JSValue)
    (isRaw : Bool) (ds : DataSource) (cfg : Option StarbaseDBConfiguration)
    (st : QState) (m : String)
    (hallow : isQueryAllowed env sql (allowlistEnabled cfg) = .ok ())
    (hds : ds.source = .internal)
    (hmiss : isRaw = false →
      cacheLookup st.cache (applyRLS env sql (rlsEnabled cfg)) p = none)
    (hrpc : env.rpcExec (applyRLS env sql (rlsEnabled cfg)) p isRaw = .error m) :
    (executeQuery env sql p isRaw (some ds) cfg st).2 = .error m := by
  cases hb : isRaw with
  | true =>
    subst hb
    simp [executeQuery, hallow, beforeQuery, dispatchExec, hds, hrpc]
  | false =>
    subst hb
    simp [executeQuery, hallow, beforeQuery, dispatchExec, hds, hrpc, hmiss rfl]

/-- A single-statement request body whose statement the allowlist rejects. -/
def bodyDrop : JSValue := .obj [("sql", .str "DROP TABLE users")]

/-- Claim C7 is false as stated: a security (allowlist) rejection is reported
with status 500 — not a 4xx-style error — because `isQueryAllowed` throws and
the route's generic catch maps every thrown error to 500.  (No side effect
does occur: the backend log stays empty.) -/
theorem security_rejection_reported_500 :
    (queryRoute okEnv "application/json" bodyDrop false (some dsInternal)
        (some cfgAllowOnly) emptySt).2 =
      createResponse none (some "Query not allowed") 500 ∧
    ¬((queryRoute okEnv "application/json" bodyDrop false (some dsInternal)
        (some cfgAllowOnly) emptySt).2.status < 500) ∧
    (queryRoute okEnv "application/json" bodyDrop false (some dsInternal)
        (some cfgAllowOnly) emptySt).1.backendLog = [] := by
  refine ⟨rfl, by decide, rfl⟩

/-- Claim C7 (amended): at the query endpoint, single-statement shape
validation errors are reported as 400 before any side effect (first conjunct,
content-type case; the `sql`/`params` cases are in the C5 validation
theorem); security (allowlist) rejections and backend execution errors are
thrown inside `executeQuery` and surface through the route's generic catch as
500-style structured errors carrying the underlying message — a security
rejection leaves cache and backend untouched (second conjunct), and a backend
error's message is propagated verbatim (third conjunct).  Cache errors cannot
surface: the spec-modelled cache manager absorbs failures and is total. -/
theorem queryRoute_error_classification (env : Env) (ct : String) (body : JSValue)
    (isRaw : Bool) (ds : DataSource) (cfg : Option StarbaseDBConfiguration)
    (st : QState) :
    (containsSub "application/json".data ct.data = false →
      queryRoute env ct body isRaw (some ds) cfg st =
        (st, createResponse none (some "Content-Type must be application/json.") 400)) ∧
    (∀ s, containsSub "application/json".data ct.data = true →
      txTaken (body.getField "transaction") = false →
      body.getField "sql" = .str s → trimIsEmpty s = false →
      ((body.getField "params").isUndef = true ∨
        (body.getField "params").isArrayJS = true ∨
        (body.getField "params").typeofJS = "object") →
      allowlistEnabled cfg = true → env.allowed s = false →
      (queryRoute env ct body isRaw (some ds) cfg st).2 =
          createResponse none (some "Query not allowed") 500 ∧
        (queryRoute env ct body isRaw (some ds) cfg st).1.cache = st.cache ∧
        (queryRoute env ct body isRaw (some ds) cfg st).1.backendLog =
          st.backendLog) ∧
    (∀ s m, containsSub "application/json".data ct.data = true →
      txTaken (body.getField "transaction") = false →
      body.getField "sql" = .str s → trimIsEmpty s = false →
      ((body.getField "params").isUndef = true ∨
        (body.getField "params").isArrayJS = true ∨
        (body.getField "params").typeofJS = "object") →
      isQueryAllowed env s (allowlistEnabled cfg) = .ok () →
      ds.source = .internal →
      (isRaw = false →
        cacheLookup st.cache (applyRLS env s (rlsEnabled cfg))
          (body.getField "params") = none) →
      env.rpcExec (applyRLS env s (rlsEnabled cfg)) (body.getField "params") isRaw =
        .error m →
      (queryRoute env ct body isRaw (some ds) cfg st).2 =
        createResponse none (some m) 500) := by
  refine ⟨?_, ?_, ?_⟩
  · intro hct
    simp [queryRoute, hct]
  · intro s hct htx hsql htrim hpok hae hnal
    have hexec := executeQuery_allowlist_reject env s (body.getField "params") isRaw
      ds cfg st hae hnal
    have hcond : (!(body.getField "params").isUndef &&
        !(body.getField "params").isArrayJS &&
        !((body.getField "params").typeofJS = "object")) = false := by
      rcases hpok with h | h | h <;> simp [h]
    cases hv : body.getField "transaction" with
    | arr es =>
      cases es with
      | nil =>
        refine ⟨?_, ?_, ?_⟩ <;>
          simp [queryRoute, hct, hv, hsql, htrim, hcond, hexec, QState.backendLog,
            List.filterMap_append]
      | cons q qs => rw [hv] at htx; simp [txTaken] at htx
    | undefined =>
      refine ⟨?_, ?_, ?_⟩ <;>
        simp [queryRoute, hct, hv, hsql, htrim, hcond, hexec, QState.backendLog,
          List.filterMap_append]
    | null =>
      refine ⟨?_, ?_, ?_⟩ <;>
        simp [queryRoute, hct, hv, hsql, htrim, hcond, hexec, QState.backendLog,
          List.filterMap_append]
    | bool b =>
      refine ⟨?_, ?_, ?_⟩ <;>
        simp [queryRoute, hct, hv, hsql, htrim, hcond, hexec, QState.backendLog,
          List.filterMap_append]
    | num n =>
      refine ⟨?_, ?_, ?_⟩ <;>
        simp [queryRoute, hct, hv, hsql, htrim, hcond, hexec, QState.backendLog,
          List.filterMap_append]
    | str s2 =>
      refine ⟨?_, ?_, ?_⟩ <;>
        simp [queryRoute, hct, hv, hsql, htrim, hcond, hexec, QState.backendLog,
          List.filterMap_append]
    | obj fs =>
      refine ⟨?_, ?_, ?_⟩ <;>
        simp [queryRoute, hct, hv, hsql, htrim, hcond, hexec, QState.backendLog,
          List.filterMap_append]
  · intro s m hct htx hsql htrim hpok hallow hds hmiss hrpc
    have hexec := executeQuery_backend_error env s (body.getField "params") isRaw
      ds cfg st m hallow hds hmiss hrpc
    have hcond : (!(body.getField "params").isUndef &&
        !(body.getField "params").isArrayJS &&
        !((body.getField "params").typeofJS = "object")) = false := by
      rcases hpok with h | h | h <;> simp [h]
    cases hq : executeQuery env s (body.getField "params") isRaw (some ds) cfg st with
    | mk stq rq =>
      rw [hq] at hexec
      simp only at hexec
      subst hexec
      cases hv : body.getField "transaction" with
      | arr es =>
        cases es with
        | nil => simp [queryRoute, hct, hv, hsql, htrim, hcond, hq]
        | cons q qs => rw [hv] at htx; simp [txTaken] at htx
      | undefined => simp [queryRoute, hct, hv, hsql, htrim, hcond, hq]
      | null => simp [queryRoute, hct, hv, hsql, htrim, hcond, hq]
      | bool b => simp [queryRoute, hct, hv, hsql, htrim, hcond, hq]
      | num n => simp [queryRoute, hct, hv, hsql, htrim, hcond, hq]
      | str s2 => simp [queryRoute, hct, hv, hsql, htrim, hcond, hq]
      | obj fs => simp [queryRoute, hct, hv, hsql, htrim, hcond, hq]

/-- Witness for the amended C7: the allowlist rejection of
`DROP TABLE users` yields the 500 response with untouched cache and backend
log, by the second conjunct of the classification theorem. -/
theorem queryRoute_error_classification_witness :
    (queryRoute okEnv "application/json" bodyDrop false (some dsInternal)
        (some cfgAllowOnly) emptySt).2 =
      createResponse none (some "Query not allowed") 500 ∧
    (queryRoute okEnv "application/json" bodyDrop false (some dsInternal)
        (some cfgAllowOnly) emptySt).1.cache = emptySt.cache ∧
    (queryRoute okEnv "application/json" bodyDrop false (some dsInternal)
        (some cfgAllowOnly) emptySt).1.backendLog = emptySt.backendLog :=
  ((queryRoute_error_classification okEnv "application/json" bodyDrop false
      dsInternal (some cfgAllowOnly) emptySt).2.1) "DROP TABLE users" rfl rfl rfl
    rfl (Or.inl rfl) rfl rfl

/-! ## Claim C1 -/

/-- A successful prefix test decomposes the list. -/
lemma startsWithCL_exists : ∀ {p l : List Char}, startsWithCL p l = true →
    ∃ t, l = p ++ t := by
  intro p
  induction p with
  | nil => intro l _; exact ⟨l, rfl⟩
  | cons c cs ih =>
    intro l h
    match l with
    | [] => simp [startsWithCL] at h
    | d :: ds =>
      rw [startsWithCL] at h
      simp only [Bool.and_eq_true, decide_eq_true_eq] at h
      obtain ⟨hcd, hrest⟩ := h
      subst hcd
      obtain ⟨t, ht⟩ := ih hrest
      exact ⟨t, by rw [List.cons_append, ht]⟩

/-- A path under `/rest/*` is none of the query-endpoint paths registered
before the REST route. -/
lemma isRestPath_facts {path : List Char} (h : isRestPath path = true) :
    path ≠ "/query/raw".data ∧ path ≠ "/query".data := by
  rw [isRestPath] at h
  simp only [Bool.or_eq_true, decide_eq_true_eq] at h
  cases h with
  | inl he =>
    subst he
    exact ⟨by decide, by decide⟩
  | inr hsw =>
    obtain ⟨t, ht⟩ := startsWithCL_exists hsw
    subst ht
    constructor
    · intro hx
      injection hx with h1 h2
      injection h2 with h3 _
      exact absurd h3 (by decide)
    · intro hx
      injection hx with h1 h2
      injection h2 with h3 _
      exact absurd h3 (by decide)

/-- Claim C1 is false as stated: an OPTIONS request to a path under `/rest/*`
on an external-source gateway with the REST feature on is answered by the
CORS preflight handler (registered on `'*'` before the REST route), not by
the fixed internal-only rejection. -/
theorem options_rest_hits_cors_preflight :
    isRestPath "/rest/users".data = true ∧
    dsExternal.source = .external ∧
    getFeature cfgPlain (fun f => f.rest) = true ∧
    dispatchRequest dsExternal cfgPlain "OPTIONS" "/rest/users".data = .corsPre ∧
    (∀ o, dispatchRequest dsExternal cfgPlain "OPTIONS" "/rest/users".data ≠
      .restOutcome o) := by
  refine ⟨by decide, rfl, rfl, rfl, fun o h => DispatchOutcome.noConfusion h⟩

/-- Claim C1 (amended): every REST request — any path under `/rest/*`, any
HTTP verb other than OPTIONS (which the CORS preflight handler intercepts
first) — handled by a gateway whose data source is external is answered with
the fixed internal-only 400 error, and REST never reaches SQL generation or
the backend (the outcome is an immediate response, not a pipeline pass). -/
theorem rest_external_rejected (ds : DataSource) (cfg : StarbaseDBConfiguration)
    (method : String) (path : List Char)
    (hsrc : ds.source = .external)
    (hrest : getFeature cfg (fun f => f.rest) = true)
    (hpath : isRestPath path = true)
    (hm : ¬(method = "OPTIONS")) :
    dispatchRequest ds cfg method path =
      .restOutcome (.response (createResponse none
        (some "Function is only available for internal data source.") 400)) := by
  obtain ⟨hne1, hne2⟩ := isRestPath_facts hpath
  have hmr : matchRoute cfg method path = .rest := by
    rw [matchRoute]
    rw [if_neg (by simp [hm])]
    rw [if_neg (by simp [hne1])]
    rw [if_neg (by simp [hne2])]
    rw [if_pos (by simp [hrest, hpath])]
  rw [dispatchRequest, hmr]
  simp [LiteREST.handleRequest, hsrc]

/-- Witness for the amended C1: a GET to `/rest/users` on an external-source
gateway is rejected with the fixed internal-only 400 error. -/
theorem rest_external_rejected_witness :
    dispatchRequest dsExternal cfgPlain "GET" "/rest/users".data =
      .restOutcome (.response (createResponse none
        (some "Function is only available for internal data source.") 400)) :=
  rest_external_rejected dsExternal cfgPlain "GET" "/rest/users".data rfl rfl
    (by decide) (by decide)

/-- A concrete two-row RawResult used to witness the amended C8. -/
def rawSample : RawResult :=
  ⟨["a", "b"], [[.num 1, .str "x"], [.num 2, .null]], ⟨2, 0⟩⟩

/-- Witness for the amended C8 at `rawSample`. -/
theorem transform_roundtrip_witness :
    rawSample.rows ≠ [] ∧ rawSample.columns.Nodup ∧
    (transformToRaw (transformFromRaw rawSample)).columns = rawSample.columns ∧
    (transformToRaw (transformFromRaw rawSample)).rows = rawSample.rows := by
  refine ⟨List.cons_ne_nil _ _, by decide, ?_, ?_⟩
  · exact (transform_roundtrip rawSample (List.cons_ne_nil _ _) (by decide)
      (by decide)).1
  · exact (transform_roundtrip rawSample (List.cons_ne_nil _ _) (by decide)
      (by decide)).2
